import Mathlib

/-!
Shallow embedding of the StellarBridge milestone-escrow contract
(`contracts/stellarbridge-contract/src/lib.rs`, with the secondary variant
`src/lib.rs` embedded separately where it differs).

Modelling conventions:
* Soroban `Address` and `BytesN<32>` values are opaque identifiers, modelled
  as `Nat`.
* `i128` amounts are modelled as unbounded `Int`; Rust `/` on `i128`
  truncates toward zero, so it is modelled by `Int.tdiv`, and the runtime
  panic of a division by zero is modelled by the explicit error
  `Err.PanicDivisionByZero`.
* `u64` timestamps and `u32` counters/indices are modelled as `Nat`.
* Every contract entry point is a pure function
  `... → State → Except Err (result)`: a Rust `panic!`/`expect` aborts the
  whole call with no state change, which the `Except` error case models.
  The external token client is an event log: each call returns the list of
  `transfer` instructions it issued, in order.
* `require_auth` is an external capability check that either succeeds or
  aborts the call before any effect; it is not modelled (no claim is about
  authorization).
-/

/-- Milestone status, from `enum MilestoneStatus`. -/
inductive MilestoneStatus
  | Pending
  | EvidenceSubmitted
  | Verified
  | Rejected
deriving DecidableEq, Repr

/-- One milestone, from `struct Milestone`. -/
structure Milestone where
  amount : Int
  deadline : Nat
  status : MilestoneStatus
  evidence_hash : Option Nat
deriving DecidableEq, Repr

/-- A project record, from `struct Project`. -/
structure Project where
  id : Nat
  owner : Nat
  goal_amount : Int
  raised : Int
  milestones : List Milestone
  active : Bool
deriving DecidableEq, Repr

/-- An investment record, from `struct Investment`. -/
structure Investment where
  investor : Nat
  amount : Int
  timestamp : Nat
deriving DecidableEq, Repr

/-- A `token_client.transfer(src, dst, amount)` instruction issued to the
payment rail. -/
structure Transfer where
  src : Nat
  dst : Nat
  amount : Int
deriving DecidableEq, Repr

/-- The distinguishable failure conditions.  Each corresponds to one
`panic!`/`expect` site of the source; `PanicDivisionByZero` is the Rust
runtime panic raised by `/` on `i128` when the divisor is zero. -/
inductive Err
  | AlreadyInitialized
  | MalformedMilestones
  | BudgetExceeded
  | NotFound
  | ProjectInactive
  | InvalidAmount
  | InvalidIndex
  | NotPending
  | NotAwaitingVerification
  | DeadlineNotReached
  | AlreadyVerified
  | TokenNotConfigured
  | VerifierNotConfigured
  | PanicDivisionByZero
deriving DecidableEq, Repr

/-- Host environment data consumed by the contract: the ledger clock
(`env.ledger().timestamp()`) and the escrow account
(`env.current_contract_address()`). -/
structure Env where
  timestamp : Nat
  contractAddress : Nat
deriving DecidableEq, Repr

/-- Read an `InvestorAmount(project, investor)` storage entry,
`unwrap_or(0)` like the source. -/
def getAmt (k : Nat × Nat) : List ((Nat × Nat) × Int) → Int
  | [] => 0
  | e :: rest => if e.1 = k then e.2 else getAmt k rest

/-- Write an `InvestorAmount(project, investor)` storage entry
(replace-or-insert, mirroring `storage().set`). -/
def setAmt (k : Nat × Nat) (v : Int) : List ((Nat × Nat) × Int) → List ((Nat × Nat) × Int)
  | [] => [(k, v)]
  | e :: rest => if e.1 = k then (k, v) :: rest else e :: setAmt k v rest

/-- The contract's persistent storage, one field per `DataKey` variant.
`projects` and `investments` are keyed maps with the source's
`unwrap_or` defaults; `investorAmounts` keeps one entry per
`(project, investor)` key. -/
structure State where
  verifier : Option Nat
  token : Option Nat
  projectCounter : Nat
  projects : Nat → Option Project
  investments : Nat → List Investment
  investorAmounts : List ((Nat × Nat) × Int)

/-- Storage of a freshly deployed contract instance: nothing set. -/
def initState : State :=
  { verifier := none
    token := none
    projectCounter := 0
    projects := fun _ => none
    investments := fun _ => []
    investorAmounts := [] }

/-- Embeds the `initialize` entry point: fails if a verifier is already
stored, otherwise persists verifier, token and a zero project counter. -/
def init_contract (_env : Env) (verifier token : Nat) (s : State) :
    Except Err (State × List Transfer) :=
  if s.verifier.isSome then .error .AlreadyInitialized
  else .ok ({ s with verifier := some verifier, token := some token, projectCounter := 0 }, [])

/-- Embeds `create_project`: checks the two milestone lists have equal
length, builds the milestone list (all `Pending`, no evidence) while
accumulating the total milestone amount, rejects a total above
`goal_amount`, then stores the project under the incremented counter. -/
def create_project (_env : Env) (owner : Nat) (goal_amount : Int)
    (milestone_amounts : List Int) (milestone_deadlines : List Nat)
    (s : State) : Except Err (Nat × State) :=
  if milestone_amounts.length ≠ milestone_deadlines.length then
    .error .MalformedMilestones
  else
    let total_milestone_amount := milestone_amounts.foldl (· + ·) 0
    let milestones := List.zipWith
      (fun a d => { amount := a, deadline := d, status := .Pending, evidence_hash := none : Milestone })
      milestone_amounts milestone_deadlines
    if total_milestone_amount > goal_amount then .error .BudgetExceeded
    else
      let counter := s.projectCounter + 1
      let project : Project :=
        { id := counter, owner := owner, goal_amount := goal_amount, raised := 0,
          milestones := milestones, active := true }
      .ok (counter,
        { s with
          projects := fun k => if k = counter then some project else s.projects k
          projectCounter := counter })

namespace RootVariant

/-- Embeds `create_project` of the secondary source variant
(`stellarbridge-contract/src/lib.rs`): identical to the primary one except
that it performs no budget check at all — the milestone total is never
compared against `goal_amount`. -/
def create_project (_env : Env) (owner : Nat) (goal_amount : Int)
    (milestone_amounts : List Int) (milestone_deadlines : List Nat)
    (s : State) : Except Err (Nat × State) :=
  if milestone_amounts.length ≠ milestone_deadlines.length then
    .error .MalformedMilestones
  else
    let milestones := List.zipWith
      (fun a d => { amount := a, deadline := d, status := .Pending, evidence_hash := none : Milestone })
      milestone_amounts milestone_deadlines
    let counter := s.projectCounter + 1
    let project : Project :=
      { id := counter, owner := owner, goal_amount := goal_amount, raised := 0,
        milestones := milestones, active := true }
    .ok (counter,
      { s with
        projects := fun k => if k = counter then some project else s.projects k
        projectCounter := counter })

end RootVariant

/-- Embeds `invest`: project must exist and be active, the amount must be
positive, the token must be configured; then one transfer into escrow is
issued, `raised` grows by `amount`, the investor's cumulative total grows
by `amount`, and an `Investment` record is appended. -/
def invest (env : Env) (project_id : Nat) (investor : Nat) (amount : Int)
    (s : State) : Except Err (State × List Transfer) :=
  match s.projects project_id with
  | none => .error .NotFound
  | some project =>
    if !project.active then .error .ProjectInactive
    else if amount ≤ 0 then .error .InvalidAmount
    else
      match s.token with
      | none => .error .TokenNotConfigured
      | some _ =>
        let t : Transfer := { src := investor, dst := env.contractAddress, amount := amount }
        let project' := { project with raised := project.raised + amount }
        let current := getAmt (project_id, investor) s.investorAmounts
        .ok
          ({ s with
              projects := fun k => if k = project_id then some project' else s.projects k
              investorAmounts := setAmt (project_id, investor) (current + amount) s.investorAmounts
              investments := fun k =>
                if k = project_id then
                  s.investments project_id ++
                    [{ investor := investor, amount := amount, timestamp := env.timestamp }]
                else s.investments k },
            [t])

/-- Embeds `submit_evidence`: project must exist, the index must be in
range, the milestone must be `Pending`; then the evidence hash is stored
and the status becomes `EvidenceSubmitted`. -/
def submit_evidence (_env : Env) (project_id milestone_index : Nat)
    (evidence_hash : Nat) (s : State) : Except Err (State × List Transfer) :=
  match s.projects project_id with
  | none => .error .NotFound
  | some project =>
    match project.milestones[milestone_index]? with
    | none => .error .InvalidIndex
    | some milestone =>
      if milestone.status ≠ MilestoneStatus.Pending then .error .NotPending
      else
        let milestone' :=
          { milestone with
            evidence_hash := some evidence_hash
            status := MilestoneStatus.EvidenceSubmitted }
        let project' :=
          { project with milestones := project.milestones.set milestone_index milestone' }
        .ok
          ({ s with
              projects := fun k => if k = project_id then some project' else s.projects k },
            [])

/-- Embeds `verify_milestone`: a verifier must be configured, the project
must exist, the index must be in range, the milestone must be
`EvidenceSubmitted`.  On approval the status becomes `Verified` and
exactly `milestone.amount` is transferred from escrow to the owner; on
rejection the status becomes `Rejected` and no transfer is issued. -/
def verify_milestone (env : Env) (project_id milestone_index : Nat)
    (approved : Bool) (s : State) : Except Err (State × List Transfer) :=
  match s.verifier with
  | none => .error .VerifierNotConfigured
  | some _ =>
    match s.projects project_id with
    | none => .error .NotFound
    | some project =>
      match project.milestones[milestone_index]? with
      | none => .error .InvalidIndex
      | some milestone =>
        if milestone.status ≠ MilestoneStatus.EvidenceSubmitted then
          .error .NotAwaitingVerification
        else if approved then
          match s.token with
          | none => .error .TokenNotConfigured
          | some _ =>
            let milestone' := { milestone with status := MilestoneStatus.Verified }
            let project' :=
              { project with milestones := project.milestones.set milestone_index milestone' }
            .ok
              ({ s with
                  projects := fun k => if k = project_id then some project' else s.projects k },
                [{ src := env.contractAddress, dst := project.owner, amount := milestone.amount }])
        else
          let milestone' := { milestone with status := MilestoneStatus.Rejected }
          let project' :=
            { project with milestones := project.milestones.set milestone_index milestone' }
          .ok
            ({ s with
                projects := fun k => if k = project_id then some project' else s.projects k },
              [])

/-- The `unverified_amount` accumulation loop of `trigger_refund`: walk the
milestones from `milestone_index` on, adding the amount of each one whose
status is not `Verified`. -/
def unverifiedAmount (ms : List Milestone) (milestone_index : Nat) : Int :=
  (ms.drop milestone_index).foldl
    (fun acc m => if m.status ≠ MilestoneStatus.Verified then acc + m.amount else acc) 0

/-- The refund-dispatch loop of `trigger_refund`: for each investment in
order compute `(investment.amount * u).tdiv raised` and issue a transfer
from escrow when the refund is positive.  Computing the quotient with
`raised = 0` is the Rust division-by-zero panic. -/
def refundLoop (contractAddress : Nat) (raised u : Int) :
    List Investment → Except Err (List Transfer)
  | [] => .ok []
  | inv :: rest =>
    if raised = 0 then .error .PanicDivisionByZero
    else
      let refund := Int.tdiv (inv.amount * u) raised
      match refundLoop contractAddress raised u rest with
      | .error e => .error e
      | .ok ts =>
        if refund > 0 then
          .ok ({ src := contractAddress, dst := inv.investor, amount := refund } :: ts)
        else .ok ts

/-- Embeds `trigger_refund`: project must exist, index in range, the
ledger clock must have reached the milestone's deadline, and the milestone
must not be `Verified`.  Then the unverified pool is accumulated, the
refund loop runs over the stored investments (the token must be
configured), and the project is deactivated.  `raised` is not modified. -/
def trigger_refund (env : Env) (project_id milestone_index : Nat) (s : State) :
    Except Err (State × List Transfer) :=
  match s.projects project_id with
  | none => .error .NotFound
  | some project =>
    match project.milestones[milestone_index]? with
    | none => .error .InvalidIndex
    | some milestone =>
      if env.timestamp < milestone.deadline then .error .DeadlineNotReached
      else if milestone.status = MilestoneStatus.Verified then .error .AlreadyVerified
      else
        let u := unverifiedAmount project.milestones milestone_index
        match s.token with
        | none => .error .TokenNotConfigured
        | some _ =>
          match refundLoop env.contractAddress project.raised u (s.investments project_id) with
          | .error e => .error e
          | .ok ts =>
            .ok
              ({ s with
                  projects := fun k =>
                    if k = project_id then some { project with active := false }
                    else s.projects k },
                ts)

/-- Embeds the read accessor `get_investor_amount` (`unwrap_or(0)`). -/
def get_investor_amount (s : State) (project_id investor : Nat) : Int :=
  getAmt (project_id, investor) s.investorAmounts

/-- Embeds the read accessor `get_project_count` (`unwrap_or(0)`). -/
def get_project_count (s : State) : Nat :=
  s.projectCounter

/-- One public entry-point invocation with its arguments. -/
inductive Op
  | opInit (verifier token : Nat)
  | opCreate (owner : Nat) (goal_amount : Int)
      (milestone_amounts : List Int) (milestone_deadlines : List Nat)
  | opInvest (project_id investor : Nat) (amount : Int)
  | opSubmit (project_id milestone_index evidence_hash : Nat)
  | opVerify (project_id milestone_index : Nat) (approved : Bool)
  | opRefund (project_id milestone_index : Nat)

/-- Run one public operation of the primary contract, returning the new
storage and the transfers it instructed the payment rail to perform. -/
def applyOp (env : Env) (op : Op) (s : State) : Except Err (State × List Transfer) :=
  match op with
  | .opInit v t => init_contract env v t s
  | .opCreate owner goal amts dls =>
    match create_project env owner goal amts dls s with
    | .error e => .error e
    | .ok (_, s') => .ok (s', [])
  | .opInvest pid investor amount => invest env pid investor amount s
  | .opSubmit pid idx h => submit_evidence env pid idx h s
  | .opVerify pid idx approved => verify_milestone env pid idx approved s
  | .opRefund pid idx => trigger_refund env pid idx s

/-- One successful public operation takes storage `s` to storage `s'`. -/
def Step (s s' : State) : Prop :=
  ∃ env op ts, applyOp env op s = .ok (s', ts)

/-- Storage states reachable from a fresh deployment through the public
operations. -/
def Reachable (s : State) : Prop :=
  Relation.ReflTransGen Step initState s

/-- The status of milestone `idx` of project `pid`, when both exist. -/
def milestoneStatusAt (s : State) (pid idx : Nat) : Option MilestoneStatus :=
  match s.projects pid with
  | none => none
  | some p => (p.milestones[idx]?).map Milestone.status

/-- Sum of the amounts of a list of investment records. -/
def sumAmounts (l : List Investment) : Int :=
  (l.map Investment.amount).sum

/-- Sum of the amounts of a list of transfers. -/
def sumTransfers (l : List Transfer) : Int :=
  (l.map Transfer.amount).sum

/-- Sum of all stored per-investor contribution totals of one project. -/
def sumFor (pid : Nat) (l : List ((Nat × Nat) × Int)) : Int :=
  ((l.filter (fun e => e.1.1 == pid)).map (fun e => e.2)).sum

/-- Whether a call result is a success. -/
def resultIsOk (r : Except Err (State × List Transfer)) : Bool :=
  match r with
  | .ok _ => true
  | .error _ => false

/-- The transfers issued by a call (empty for a failed call). -/
def resultTransfers (r : Except Err (State × List Transfer)) : List Transfer :=
  match r with
  | .ok (_, ts) => ts
  | .error _ => []

/-- The error of a failed call. -/
def resultError (r : Except Err (State × List Transfer)) : Option Err :=
  match r with
  | .ok _ => none
  | .error e => some e

/-- The post-state of a call, or the pre-state if the call failed
(storage rollback). -/
def stepState (env : Env) (op : Op) (s : State) : State :=
  match applyOp env op s with
  | .ok (s', _) => s'
  | .error _ => s

/-- The allowed single-step evolutions of one milestone's status:
unchanged, `Pending → EvidenceSubmitted`, or
`EvidenceSubmitted → Verified / Rejected`. -/
def statusStep (a b : MilestoneStatus) : Prop :=
  a = b ∨
    (a = .Pending ∧ b = .EvidenceSubmitted) ∨
    (a = .EvidenceSubmitted ∧ (b = .Verified ∨ b = .Rejected))

instance (a b : MilestoneStatus) : Decidable (statusStep a b) := by
  unfold statusStep; infer_instance

/-! ### Concrete execution traces

Shared scenario states used by several of the results below.  Addresses:
`0` is the contract (escrow) account, `1` the verifier, `2` the token,
`3` the project owner, `4` and `5` investors. -/

/-- Environment with ledger time `t` and escrow account `0`. -/
def envAt (t : Nat) : Env := { timestamp := t, contractAddress := 0 }

/-- Trace H, step 1: `initialize(verifier = 1, token = 2)`. -/
def stH1 : State := stepState (envAt 0) (.opInit 1 2) initState

/-- Trace H, step 2: `create_project(owner = 3, goal = 100, amounts = [100], deadlines = [0])`. -/
def stH2 : State := stepState (envAt 0) (.opCreate 3 100 [100] [0]) stH1

/-- Trace H, step 3: `invest(1, investor = 4, amount = 100)` at time 1. -/
def stH3 : State := stepState (envAt 1) (.opInvest 1 4 100) stH2

/-- Trace H, step 4: `trigger_refund(1, 0)` at time 10 (deadline 0 passed). -/
def stH4 : State := stepState (envAt 10) (.opRefund 1 0) stH3

/-- Trace O: like trace H but the owner `3` invests in their own project. -/
def stO3 : State := stepState (envAt 1) (.opInvest 1 3 100) stH2

/-- Trace E: `create_project(owner = 3, goal = 400, amounts = [400], deadlines = [0])`
on the initialized state — a project that never receives any investment. -/
def stE2 : State := stepState (envAt 0) (.opCreate 3 400 [400] [0]) stH1

/-- Trace T, step 1: `create_project(3, 100, [100], [0])` **before**
`initialize` (nothing in the source requires initialization first). -/
def stT1 : State := stepState (envAt 0) (.opCreate 3 100 [100] [0]) initState

/-- Trace T, step 2: `submit_evidence(1, 0, hash 7)` — milestone 0 becomes
`EvidenceSubmitted`. -/
def stT2 : State := stepState (envAt 0) (.opSubmit 1 0 7) stT1

/-- Trace T, step 3: `initialize(1, 2)` — succeeds (no verifier stored yet)
and resets the project counter to `0` although project 1 exists. -/
def stT3 : State := stepState (envAt 0) (.opInit 1 2) stT2

/-- Trace T, step 4: `invest(1, investor = 4, amount = 50)` at time 1. -/
def stT4 : State := stepState (envAt 1) (.opInvest 1 4 50) stT3

/-- Trace T, step 5: `create_project(3, 100, [100], [0])` again — the counter
was reset, so this **overwrites** project 1 (fresh `Pending` milestone,
`raised = 0`) while the old investment records remain stored. -/
def stT5 : State := stepState (envAt 1) (.opCreate 3 100 [100] [0]) stT4

/-! ### Derived definitions and concrete scenario states -/

/-- The project stored by a successful `create_project`. -/
def createdProject (owner : Nat) (goal_amount : Int)
    (milestone_amounts : List Int) (milestone_deadlines : List Nat) (counter : Nat) : Project :=
  { id := counter, owner := owner, goal_amount := goal_amount, raised := 0,
    milestones := List.zipWith
      (fun a d => { amount := a, deadline := d, status := .Pending, evidence_hash := none : Milestone })
      milestone_amounts milestone_deadlines,
    active := true }

/-- Every stored project has a non-negative `raised` balance. -/
def NonnegRaised (s : State) : Prop :=
  ∀ pid p, s.projects pid = some p → 0 ≤ p.raised

/-- The unverified pool as the spec phrases it: the sum of the amounts of
the milestones at index ≥ `milestone_index` whose status is not
`Verified`. -/
def specUnverified (ms : List Milestone) (milestone_index : Nat) : Int :=
  (((ms.drop milestone_index).filter
      (fun m => m.status ≠ MilestoneStatus.Verified)).map Milestone.amount).sum

/-- The refund transfers of one `trigger_refund` call, written as a
`filterMap` with the source's truncating division. -/
def tdivRefundTransfers (contractAddress : Nat) (raised u : Int) (l : List Investment) :
    List Transfer :=
  l.filterMap fun inv =>
    let r := (inv.amount * u).tdiv raised
    if 0 < r then some { src := contractAddress, dst := inv.investor, amount := r } else none

/-- The refund transfers as the spec phrases them: `floor` division,
zero refunds skipped. -/
def specRefundTransfers (contractAddress : Nat) (raised u : Int) (l : List Investment) :
    List Transfer :=
  l.filterMap fun inv =>
    let r := (inv.amount * u).fdiv raised
    if 0 < r then some { src := contractAddress, dst := inv.investor, amount := r } else none

/-- The milestone of project 1 in trace H (`Pending`, amount 100, deadline 0). -/
def msH : Milestone :=
  { amount := 100, deadline := 0, status := MilestoneStatus.Pending, evidence_hash := none }

/-- Project 1 as stored in `stH4`: fully funded but deactivated by the refund. -/
def projH4 : Project :=
  { id := 1, owner := 3, goal_amount := 100, raised := 100, milestones := [msH], active := false }

/-- Whether a call result is the Rust division-by-zero panic. -/
def isDivByZeroPanic : Except Err (State × List Transfer) → Bool
  | .error Err.PanicDivisionByZero => true
  | _ => false

/-- The milestone of project 1 in trace E (`Pending`, amount 400, deadline 0). -/
def msE : Milestone :=
  { amount := 400, deadline := 0, status := MilestoneStatus.Pending, evidence_hash := none }

/-- Project 1 as stored in `stE2` (goal 400, never invested in). -/
def projE2 : Project :=
  { id := 1, owner := 3, goal_amount := 400, raised := 0, milestones := [msE], active := true }

/-- The post-state of the refund on `stE2`. -/
def stE3 : State := stepState (envAt 10) (.opRefund 1 0) stE2

/-! ### Reachability of the trace states -/

lemma step_H1 : Step initState stH1 :=
  ⟨envAt 0, .opInit 1 2, [], rfl⟩

lemma step_H2 : Step stH1 stH2 :=
  ⟨envAt 0, .opCreate 3 100 [100] [0], [], rfl⟩

lemma step_H3 : Step stH2 stH3 :=
  ⟨envAt 1, .opInvest 1 4 100, [{ src := 4, dst := 0, amount := 100 }], rfl⟩

lemma step_H4 : Step stH3 stH4 :=
  ⟨envAt 10, .opRefund 1 0, [{ src := 0, dst := 4, amount := 100 }], rfl⟩

lemma reach_H1 : Reachable stH1 := Relation.ReflTransGen.single step_H1

lemma reach_H2 : Reachable stH2 := reach_H1.tail step_H2

lemma reach_H3 : Reachable stH3 := reach_H2.tail step_H3

lemma reach_H4 : Reachable stH4 := reach_H3.tail step_H4

lemma step_O3 : Step stH2 stO3 :=
  ⟨envAt 1, .opInvest 1 3 100, [{ src := 3, dst := 0, amount := 100 }], rfl⟩

lemma reach_O3 : Reachable stO3 := reach_H2.tail step_O3

lemma step_E2 : Step stH1 stE2 :=
  ⟨envAt 0, .opCreate 3 400 [400] [0], [], rfl⟩

lemma reach_E2 : Reachable stE2 := reach_H1.tail step_E2

lemma step_T1 : Step initState stT1 :=
  ⟨envAt 0, .opCreate 3 100 [100] [0], [], rfl⟩

lemma step_T2 : Step stT1 stT2 :=
  ⟨envAt 0, .opSubmit 1 0 7, [], rfl⟩

lemma step_T3 : Step stT2 stT3 :=
  ⟨envAt 0, .opInit 1 2, [], rfl⟩

lemma step_T4 : Step stT3 stT4 :=
  ⟨envAt 1, .opInvest 1 4 50, [{ src := 4, dst := 0, amount := 50 }], rfl⟩

lemma step_T5 : Step stT4 stT5 :=
  ⟨envAt 1, .opCreate 3 100 [100] [0], [], rfl⟩

lemma reach_T1 : Reachable stT1 := Relation.ReflTransGen.single step_T1

lemma reach_T2 : Reachable stT2 := reach_T1.tail step_T2

lemma reach_T3 : Reachable stT3 := reach_T2.tail step_T3

lemma reach_T4 : Reachable stT4 := reach_T3.tail step_T4

lemma reach_T5 : Reachable stT5 := reach_T4.tail step_T5

/-! ### Inversion lemmas: what a successful call tells us -/

lemma init_contract_ok {env : Env} {v t : Nat} {s s' : State} {ts : List Transfer}
    (h : init_contract env v t s = .ok (s', ts)) :
    s.verifier = none ∧
      s' = { s with verifier := some v, token := some t, projectCounter := 0 } ∧ ts = [] := by
  unfold init_contract at h
  split at h
  · cases h
  · rename_i hv
    cases h
    exact ⟨Option.not_isSome_iff_eq_none.mp (by simpa using hv), rfl, rfl⟩

lemma create_project_ok {env : Env} {o : Nat} {g : Int} {amts : List Int} {dls : List Nat}
    {s : State} {n : Nat} {s' : State}
    (h : create_project env o g amts dls s = .ok (n, s')) :
    amts.length = dls.length ∧ amts.foldl (· + ·) 0 ≤ g ∧ n = s.projectCounter + 1 ∧
      s' = { s with
        projects := fun k =>
          if k = s.projectCounter + 1 then some (createdProject o g amts dls (s.projectCounter + 1))
          else s.projects k
        projectCounter := s.projectCounter + 1 } := by
  unfold create_project at h
  split at h
  · cases h
  · rename_i hlen
    dsimp only at h
    split at h
    · cases h
    · rename_i hbudget
      cases h
      exact ⟨not_ne_iff.mp hlen, not_lt.mp hbudget, rfl, rfl⟩

lemma invest_ok {env : Env} {pid investor : Nat} {amount : Int} {s s' : State} {ts : List Transfer}
    (h : invest env pid investor amount s = .ok (s', ts)) :
    ∃ project tok, s.projects pid = some project ∧ project.active = true ∧ 0 < amount ∧
      s.token = some tok ∧
      ts = [{ src := investor, dst := env.contractAddress, amount := amount }] ∧
      s' = { s with
        projects := fun k =>
          if k = pid then some { project with raised := project.raised + amount }
          else s.projects k
        investorAmounts :=
          setAmt (pid, investor) (getAmt (pid, investor) s.investorAmounts + amount) s.investorAmounts
        investments := fun k =>
          if k = pid then
            s.investments pid ++
              [{ investor := investor, amount := amount, timestamp := env.timestamp }]
          else s.investments k } := by
  unfold invest at h
  split at h
  · cases h
  · rename_i project hproj
    split at h
    · cases h
    · rename_i hactive
      split at h
      · cases h
      · rename_i hamount
        split at h
        · cases h
        · rename_i tok htok
          cases h
          refine ⟨project, tok, hproj, ?_, by omega, htok, rfl, rfl⟩
          simpa using hactive

lemma submit_evidence_ok {env : Env} {pid idx eh : Nat} {s s' : State} {ts : List Transfer}
    (h : submit_evidence env pid idx eh s = .ok (s', ts)) :
    ∃ project milestone, s.projects pid = some project ∧
      project.milestones[idx]? = some milestone ∧
      milestone.status = MilestoneStatus.Pending ∧ ts = [] ∧
      s' = { s with
        projects := fun k =>
          if k = pid then
            some { project with
              milestones := project.milestones.set idx
                { milestone with
                  evidence_hash := some eh
                  status := MilestoneStatus.EvidenceSubmitted } }
          else s.projects k } := by
  unfold submit_evidence at h
  split at h
  · cases h
  · rename_i project hproj
    split at h
    · cases h
    · rename_i milestone hm
      split at h
      · cases h
      · rename_i hstatus
        cases h
        exact ⟨project, milestone, hproj, hm, not_ne_iff.mp hstatus, rfl, rfl⟩

lemma verify_milestone_ok {env : Env} {pid idx : Nat} {approved : Bool} {s s' : State}
    {ts : List Transfer}
    (h : verify_milestone env pid idx approved s = .ok (s', ts)) :
    ∃ ver project milestone, s.verifier = some ver ∧ s.projects pid = some project ∧
      project.milestones[idx]? = some milestone ∧
      milestone.status = MilestoneStatus.EvidenceSubmitted ∧
      ((approved = true ∧
          ts = [{ src := env.contractAddress, dst := project.owner, amount := milestone.amount }] ∧
          s' = { s with
            projects := fun k =>
              if k = pid then
                some { project with
                  milestones := project.milestones.set idx
                    { milestone with status := MilestoneStatus.Verified } }
              else s.projects k }) ∨
        (approved = false ∧ ts = [] ∧
          s' = { s with
            projects := fun k =>
              if k = pid then
                some { project with
                  milestones := project.milestones.set idx
                    { milestone with status := MilestoneStatus.Rejected } }
              else s.projects k })) := by
  unfold verify_milestone at h
  split at h
  · cases h
  · rename_i ver hver
    split at h
    · cases h
    · rename_i project hproj
      split at h
      · cases h
      · rename_i milestone hm
        split at h
        · cases h
        · rename_i hstatus
          split at h
          · rename_i happ
            split at h
            · cases h
            · rename_i tok htok
              cases h
              exact ⟨ver, project, milestone, hver, hproj, hm, not_ne_iff.mp hstatus,
                Or.inl ⟨happ, rfl, rfl⟩⟩
          · rename_i happ
            cases h
            exact ⟨ver, project, milestone, hver, hproj, hm, not_ne_iff.mp hstatus,
              Or.inr ⟨Bool.not_eq_true _ ▸ happ, rfl, rfl⟩⟩

lemma trigger_refund_ok {env : Env} {pid idx : Nat} {s s' : State} {ts : List Transfer}
    (h : trigger_refund env pid idx s = .ok (s', ts)) :
    ∃ project milestone tok, s.projects pid = some project ∧
      project.milestones[idx]? = some milestone ∧
      milestone.deadline ≤ env.timestamp ∧
      milestone.status ≠ MilestoneStatus.Verified ∧
      s.token = some tok ∧
      refundLoop env.contractAddress project.raised
        (unverifiedAmount project.milestones idx) (s.investments pid) = .ok ts ∧
      s' = { s with
        projects := fun k =>
          if k = pid then some { project with active := false } else s.projects k } := by
  unfold trigger_refund at h
  split at h
  · cases h
  · rename_i project hproj
    split at h
    · cases h
    · rename_i milestone hm
      split at h
      · cases h
      · rename_i hdl
        split at h
        · cases h
        · rename_i hver
          dsimp only at h
          split at h
          · cases h
          · rename_i tok htok
            split at h
            · cases h
            · rename_i ts0 hloop
              cases h
              exact ⟨project, milestone, tok, hproj, hm, not_lt.mp hdl, hver, htok, hloop, rfl⟩

/-! ### Reachable-state invariant: `raised` is never negative -/

lemma nonnegRaised_step {s s' : State} (h : NonnegRaised s) (hstep : Step s s') :
    NonnegRaised s' := by
  obtain ⟨env, op, ts, hap⟩ := hstep
  cases op with
  | opInit v t =>
    simp only [applyOp] at hap
    obtain ⟨-, hs', -⟩ := init_contract_ok hap
    subst hs'
    exact fun pid p hp => h pid p hp
  | opCreate o g amts dls =>
    simp only [applyOp] at hap
    cases hc : create_project env o g amts dls s with
    | error e => rw [hc] at hap; cases hap
    | ok res =>
      obtain ⟨n, s₁⟩ := res
      rw [hc] at hap
      cases hap
      obtain ⟨-, -, -, hs'⟩ := create_project_ok hc
      subst hs'
      intro pid p hp
      dsimp only at hp
      by_cases hk : pid = s.projectCounter + 1
      · rw [if_pos hk] at hp
        cases hp
        simp [createdProject]
      · rw [if_neg hk] at hp
        exact h pid p hp
  | opInvest pid investor amount =>
    simp only [applyOp] at hap
    obtain ⟨project, tok, hproj, -, hamt, -, -, hs'⟩ := invest_ok hap
    subst hs'
    intro pid' p' hp'
    dsimp only at hp'
    by_cases hk : pid' = pid
    · rw [if_pos hk] at hp'
      cases hp'
      have := h pid project hproj
      dsimp only
      omega
    · rw [if_neg hk] at hp'
      exact h pid' p' hp'
  | opSubmit pid idx eh =>
    simp only [applyOp] at hap
    obtain ⟨project, milestone, hproj, -, -, -, hs'⟩ := submit_evidence_ok hap
    subst hs'
    intro pid' p' hp'
    dsimp only at hp'
    by_cases hk : pid' = pid
    · rw [if_pos hk] at hp'
      cases hp'
      exact h pid project hproj
    · rw [if_neg hk] at hp'
      exact h pid' p' hp'
  | opVerify pid idx approved =>
    simp only [applyOp] at hap
    obtain ⟨ver, project, milestone, -, hproj, -, -, hcase⟩ := verify_milestone_ok hap
    rcases hcase with ⟨-, -, hs'⟩ | ⟨-, -, hs'⟩ <;>
      · subst hs'
        intro pid' p' hp'
        dsimp only at hp'
        by_cases hk : pid' = pid
        · rw [if_pos hk] at hp'
          cases hp'
          exact h pid project hproj
        · rw [if_neg hk] at hp'
          exact h pid' p' hp'
  | opRefund pid idx =>
    simp only [applyOp] at hap
    obtain ⟨project, milestone, tok, hproj, -, -, -, -, -, hs'⟩ := trigger_refund_ok hap
    subst hs'
    intro pid' p' hp'
    dsimp only at hp'
    by_cases hk : pid' = pid
    · rw [if_pos hk] at hp'
      cases hp'
      exact h pid project hproj
    · rw [if_neg hk] at hp'
      exact h pid' p' hp'

lemma reachable_nonnegRaised {s : State} (h : Reachable s) : NonnegRaised s := by
  induction h with
  | refl => intro pid p hp; simp [initState] at hp
  | tail _ hstep ih => exact nonnegRaised_step ih hstep

/-! ### The refund loop, characterized -/

lemma foldl_cond_add_eq (l : List Milestone) (a : Int) :
    l.foldl (fun acc m => if m.status ≠ MilestoneStatus.Verified then acc + m.amount else acc) a
      = a + ((l.filter (fun m => m.status ≠ MilestoneStatus.Verified)).map Milestone.amount).sum := by
  induction l generalizing a with
  | nil => simp
  | cons x xs ih =>
    rw [List.foldl_cons, List.filter_cons]
    by_cases hx : x.status = MilestoneStatus.Verified
    · rw [if_neg (by simp [hx]), if_neg (by simp [hx])]
      exact ih a
    · rw [if_pos (show x.status ≠ MilestoneStatus.Verified from hx),
        if_pos (by simp [hx]), List.map_cons, List.sum_cons, ih (a + x.amount)]
      ring

lemma unverifiedAmount_eq_spec (ms : List Milestone) (idx : Nat) :
    unverifiedAmount ms idx = specUnverified ms idx := by
  unfold unverifiedAmount specUnverified
  rw [foldl_cond_add_eq]
  ring

lemma refundLoop_ok_of_ne_zero (c : Nat) {raised : Int} (u : Int) (hR : raised ≠ 0) :
    ∀ l : List Investment, refundLoop c raised u l = .ok (tdivRefundTransfers c raised u l)
  | [] => rfl
  | inv :: rest => by
    unfold refundLoop tdivRefundTransfers
    rw [if_neg hR]
    have ih := refundLoop_ok_of_ne_zero c u hR rest
    unfold tdivRefundTransfers at ih
    rw [ih]
    dsimp only [List.filterMap_cons]
    by_cases hr : 0 < (inv.amount * u).tdiv raised
    · rw [if_pos hr, if_pos hr]
    · rw [if_neg hr, if_neg hr]

lemma refundLoop_ok_cases {c : Nat} {raised u : Int} {l : List Investment} {ts : List Transfer}
    (h : refundLoop c raised u l = .ok ts) : l = [] ∨ raised ≠ 0 := by
  cases l with
  | nil => exact Or.inl rfl
  | cons inv rest =>
    refine Or.inr fun hR => ?_
    unfold refundLoop at h
    rw [if_pos hR] at h
    cases h

lemma refundLoop_never_div_zero_of_empty {c : Nat} {raised u : Int} :
    refundLoop c raised u [] ≠ .error .PanicDivisionByZero := by
  intro h
  cases h

/-- With a positive divisor, truncating and floor division dispatch the
same refunds: they agree on non-negative dividends, and on negative
dividends both quotients are non-positive, hence skipped. -/
lemma tdiv_fdiv_dispatch {raised : Int} (hR : 0 < raised) (x : Int) :
    (if 0 < x.tdiv raised then some (x.tdiv raised) else none)
      = (if 0 < x.fdiv raised then some (x.fdiv raised) else none) := by
  rcases le_or_lt 0 x with hx | hx
  · rw [Int.tdiv_eq_ediv hx hR.le, Int.fdiv_eq_ediv x hR.le]
  · have ht : x.tdiv raised ≤ 0 := by
      have : x.tdiv raised = -((-x).tdiv raised) := by
        rw [Int.neg_tdiv, neg_neg]
      rw [this, neg_nonpos]
      exact Int.tdiv_nonneg (by omega) hR.le
    have hf : x.fdiv raised ≤ 0 := by
      rw [Int.fdiv_eq_ediv x hR.le]
      calc x / raised ≤ 0 / raised := Int.ediv_le_ediv hR hx.le
        _ = 0 := Int.zero_ediv raised
    rw [if_neg (by omega), if_neg (by omega)]

lemma tdiv_eq_spec_refunds {raised : Int} (hR : 0 < raised) (c : Nat) (u : Int)
    (l : List Investment) :
    tdivRefundTransfers c raised u l = specRefundTransfers c raised u l := by
  unfold tdivRefundTransfers specRefundTransfers
  refine List.filterMap_congr fun inv _ => ?_
  have h := tdiv_fdiv_dispatch hR (inv.amount * u)
  dsimp only
  by_cases ht : 0 < (inv.amount * u).tdiv raised <;>
    by_cases hf : 0 < (inv.amount * u).fdiv raised <;>
    simp only [ht, hf, if_pos, if_neg, if_true, if_false] at h ⊢ <;>
    simp_all

/-! ### Division arithmetic for the refund bound -/

lemma ediv_add_ediv_le {R : Int} (hR : 0 < R) (a b : Int) :
    a / R + b / R ≤ (a + b) / R := by
  rw [Int.le_ediv_iff_mul_le hR, add_mul]
  have ha := Int.ediv_mul_le a hR.ne'
  have hb := Int.ediv_mul_le b hR.ne'
  omega

lemma sum_map_ediv_le {R : Int} (hR : 0 < R) (f : Investment → Int) :
    ∀ l : List Investment, (l.map (fun inv => f inv / R)).sum ≤ (l.map f).sum / R
  | [] => by simp
  | inv :: rest => by
    simp only [List.map_cons, List.sum_cons]
    calc f inv / R + (rest.map (fun i => f i / R)).sum
        ≤ f inv / R + (rest.map f).sum / R := by
          have := sum_map_ediv_le hR f rest
          omega
      _ ≤ (f inv + (rest.map f).sum) / R := ediv_add_ediv_le hR _ _

lemma sum_map_ediv_exact {R : Int} (hR : R ≠ 0) (f : Investment → Int) :
    ∀ l : List Investment, (∀ inv ∈ l, R ∣ f inv) →
      (l.map (fun inv => f inv / R)).sum * R = (l.map f).sum
  | [], _ => by simp
  | inv :: rest, hdvd => by
    simp only [List.map_cons, List.sum_cons, add_mul]
    rw [Int.ediv_mul_cancel (hdvd inv (by simp)),
      sum_map_ediv_exact hR f rest (fun i hi => hdvd i (by simp [hi]))]

lemma dispatched_sum_eq {raised u : Int} (hR : 0 < raised) (hu : 0 ≤ u) (c : Nat) :
    ∀ l : List Investment, (∀ inv ∈ l, 0 ≤ inv.amount) →
      sumTransfers (tdivRefundTransfers c raised u l)
        = (l.map (fun inv => inv.amount * u / raised)).sum
  | [], _ => by simp [tdivRefundTransfers, sumTransfers]
  | inv :: rest, hpos => by
    have hnn : 0 ≤ inv.amount * u := mul_nonneg (hpos inv (by simp)) hu
    have ih := dispatched_sum_eq hR hu c rest (fun i hi => hpos i (by simp [hi]))
    unfold tdivRefundTransfers at ih ⊢
    simp only [List.filterMap_cons, List.map_cons, List.sum_cons]
    rw [Int.tdiv_eq_ediv hnn hR.le]
    by_cases hr : 0 < inv.amount * u / raised
    · rw [if_pos hr]
      simp only [sumTransfers, List.map_cons, List.sum_cons]
      rw [show ((rest.filterMap fun i =>
          let r := (i.amount * u).tdiv raised
          if 0 < r then some { src := c, dst := i.investor, amount := r } else none).map
            Transfer.amount).sum
          = (rest.map (fun i => i.amount * u / raised)).sum from ih]
    · rw [if_neg hr]
      have hz : inv.amount * u / raised = 0 := le_antisymm (by omega) (Int.ediv_nonneg hnn hR.le)
      rw [ih, hz, zero_add]

/-! ### Small storage lemmas -/

lemma getAmt_setAmt_same (k : Nat × Nat) (v : Int) :
    ∀ l : List ((Nat × Nat) × Int), getAmt k (setAmt k v l) = v
  | [] => by simp [getAmt, setAmt]
  | e :: rest => by
    unfold setAmt
    by_cases he : e.1 = k
    · rw [if_pos he]
      simp [getAmt]
    · rw [if_neg he]
      unfold getAmt
      rw [if_neg he]
      exact getAmt_setAmt_same k v rest

lemma invest_not_found {env : Env} {pid investor : Nat} {amount : Int} {s : State}
    (h : s.projects pid = none) :
    invest env pid investor amount s = .error .NotFound := by
  unfold invest
  rw [h]

lemma invest_inactive {env : Env} {pid investor : Nat} {amount : Int} {s : State} {p : Project}
    (hp : s.projects pid = some p) (hact : p.active = false) :
    invest env pid investor amount s = .error .ProjectInactive := by
  unfold invest
  rw [hp]
  simp [hact]

lemma invest_invalid_amount {env : Env} {pid investor : Nat} {amount : Int} {s : State}
    {p : Project} (hp : s.projects pid = some p) (hact : p.active = true) (hamt : amount ≤ 0) :
    invest env pid investor amount s = .error .InvalidAmount := by
  unfold invest
  rw [hp]
  simp [hact, hamt]

/-- C8: `invest` fails with `NotFound` on a missing project, with
`ProjectInactive` on an inactive project regardless of the amount, with
`InvalidAmount` on a non-positive amount; on success it adds exactly
`amount` to `raised` and to the investor's stored cumulative total, and
appends one `Investment` record with that investor, amount and the current
ledger timestamp. -/
theorem invest_characterization :
    (∀ (env : Env) (pid investor : Nat) (amount : Int) (s : State),
        s.projects pid = none → invest env pid investor amount s = .error .NotFound) ∧
    (∀ (env : Env) (pid investor : Nat) (amount : Int) (s : State) (p : Project),
        s.projects pid = some p → p.active = false →
        invest env pid investor amount s = .error .ProjectInactive) ∧
    (∀ (env : Env) (pid investor : Nat) (amount : Int) (s : State) (p : Project),
        s.projects pid = some p → p.active = true → amount ≤ 0 →
        invest env pid investor amount s = .error .InvalidAmount) ∧
    (∀ (env : Env) (pid investor : Nat) (amount : Int) (s s' : State) (ts : List Transfer),
        invest env pid investor amount s = .ok (s', ts) →
        ∃ p, s.projects pid = some p ∧
          s'.projects pid = some { p with raised := p.raised + amount } ∧
          get_investor_amount s' pid investor = get_investor_amount s pid investor + amount ∧
          s'.investments pid = s.investments pid ++
            [{ investor := investor, amount := amount, timestamp := env.timestamp }]) := by
  refine ⟨fun env pid investor amount s h => invest_not_found h,
    fun env pid investor amount s p hp hact => invest_inactive hp hact,
    fun env pid investor amount s p hp hact hamt => invest_invalid_amount hp hact hamt,
    fun env pid investor amount s s' ts h => ?_⟩
  obtain ⟨p, tok, hp, -, -, -, -, hs'⟩ := invest_ok h
  subst hs'
  refine ⟨p, hp, by simp, ?_, by simp⟩
  unfold get_investor_amount
  exact getAmt_setAmt_same _ _ _

/-- C8 witness: on the (reachable) state `stH4` project 1 is inactive, and
`invest` with amount `0` still fails with `ProjectInactive`, not
`InvalidAmount`. -/
theorem invest_characterization_witness :
    invest (envAt 11) 1 5 0 stH4 = .error .ProjectInactive :=
  invest_characterization.2.1 (envAt 11) 1 5 0 stH4 projH4 rfl rfl

/-- C5 counterexample: in the secondary source variant
(`stellarbridge-contract/src/lib.rs`), `create_project` with milestone
amounts summing to `5` against a goal of `0` succeeds and stores the
project — there is no budget check in that variant. -/
theorem budget_check_counterexample :
    ∃ s', RootVariant.create_project (envAt 0) 3 0 [5] [0] initState = .ok (1, s') ∧
      (s'.projects 1).isSome = true ∧ (0 : Int) < ([5] : List Int).foldl (· + ·) 0 :=
  ⟨_, rfl, rfl, by decide⟩

/-- C5 (amended): in the primary contract, `create_project` whose milestone
amounts sum to more than `goal_amount` fails with `BudgetExceeded` (no state
is produced), and every successful call satisfies sum ≤ goal; the secondary
variant has no such check. -/
theorem budget_check_guard :
    (∀ (env : Env) (o : Nat) (g : Int) (amts : List Int) (dls : List Nat) (s : State),
        amts.length = dls.length → g < amts.foldl (· + ·) 0 →
        create_project env o g amts dls s = .error .BudgetExceeded) ∧
    (∀ (env : Env) (o : Nat) (g : Int) (amts : List Int) (dls : List Nat) (s : State)
        (n : Nat) (s' : State),
        create_project env o g amts dls s = .ok (n, s') → amts.foldl (· + ·) 0 ≤ g) := by
  constructor
  · intro env o g amts dls s hlen hgt
    unfold create_project
    rw [if_neg (by simp [hlen])]
    dsimp only
    rw [if_pos hgt]
  · intro env o g amts dls s n s' h
    exact (create_project_ok h).2.1

/-- C5 witness: a concrete over-budget call to the primary contract is
rejected with `BudgetExceeded`. -/
theorem budget_check_guard_witness :
    create_project (envAt 0) 3 0 [5] [0] initState = .error .BudgetExceeded :=
  budget_check_guard.1 (envAt 0) 3 0 [5] [0] initState rfl (by decide)

/-- C3: `trigger_refund` has no re-entry guard.  `stH4` is reachable
(initialize; create; invest 100; trigger_refund — which paid investor 4 a
100 refund and set `active := false`), yet a second `trigger_refund` on the
now-inactive project succeeds and dispatches the same 100 refund again. -/
theorem refund_reentry_bug :
    Reachable stH4 ∧
      (stH4.projects 1).map Project.active = some false ∧
      resultIsOk (trigger_refund (envAt 10) 1 0 stH4) = true ∧
      resultTransfers (trigger_refund (envAt 10) 1 0 stH4)
        = [{ src := 0, dst := 4, amount := 100 }] :=
  ⟨reach_H4, rfl, rfl, rfl⟩

/-- C10: reachable state `stT5` (create before initialize; initialize resets
the counter; invest 50; create again overwrites project 1) stores project 1
with `raised = 0` while its investment records still sum to 50 and the
stored per-investor totals also sum to 50 — the three totals disagree. -/
theorem raised_sum_mismatch_bug :
    Reachable stT5 ∧
      (stT5.projects 1).map Project.raised = some 0 ∧
      sumAmounts (stT5.investments 1) = 50 ∧
      sumFor 1 stT5.investorAmounts = 50 ∧
      get_investor_amount stT5 1 4 = 50 ∧
      (0 : Int) ≠ 50 :=
  ⟨reach_T5, rfl, rfl, rfl, rfl, by decide⟩

/-- C6: the same counter-reset overwrite moves a milestone's status
backward: in reachable `stT4` milestone (1,0) is `EvidenceSubmitted`, and
the successful `create_project` step to `stT5` resets it to `Pending`,
which is not an allowed status transition. -/
theorem status_regression_bug :
    Reachable stT4 ∧
      applyOp (envAt 1) (.opCreate 3 100 [100] [0]) stT4 = .ok (stT5, []) ∧
      milestoneStatusAt stT4 1 0 = some MilestoneStatus.EvidenceSubmitted ∧
      milestoneStatusAt stT5 1 0 = some MilestoneStatus.Pending ∧
      ¬ statusStep MilestoneStatus.EvidenceSubmitted MilestoneStatus.Pending :=
  ⟨reach_T4, rfl, rfl, rfl, by decide⟩

/-- C9 counterexample: the refund on reachable `stH3` pays investor 4 a
refund of 100, yet `raised` of project 1 is 100 both before (`stH3`) and
after (`stH4`) — `trigger_refund` never decreases `raised`. -/
theorem refund_decreases_raised_counterexample :
    Reachable stH3 ∧
      resultIsOk (trigger_refund (envAt 10) 1 0 stH3) = true ∧
      resultTransfers (trigger_refund (envAt 10) 1 0 stH3)
        = [{ src := 0, dst := 4, amount := 100 }] ∧
      (stH3.projects 1).map Project.raised = some 100 ∧
      (stH4.projects 1).map Project.raised = some 100 :=
  ⟨reach_H3, rfl, rfl, rfl, rfl⟩

/-- C9 (amended): `raised` is non-negative in every reachable state and
`invest` adds exactly `amount` to it; but no operation ever decreases it —
`trigger_refund`, `submit_evidence`, `verify_milestone` and `initialize`
leave every project's `raised` unchanged (`trigger_refund` even while
paying refunds). -/
theorem raised_evolution :
    (∀ s : State, Reachable s → ∀ pid p, s.projects pid = some p → 0 ≤ p.raised) ∧
    (∀ (env : Env) (pid investor : Nat) (amount : Int) (s s' : State) (ts : List Transfer),
        invest env pid investor amount s = .ok (s', ts) →
        0 < amount ∧
          (∃ p, s.projects pid = some p ∧
            s'.projects pid = some { p with raised := p.raised + amount }) ∧
          ∀ q, q ≠ pid → s'.projects q = s.projects q) ∧
    (∀ (env : Env) (pid idx : Nat) (s s' : State) (ts : List Transfer),
        trigger_refund env pid idx s = .ok (s', ts) →
        ∀ q, (s'.projects q).map Project.raised = (s.projects q).map Project.raised) ∧
    (∀ (env : Env) (pid idx eh : Nat) (s s' : State) (ts : List Transfer),
        submit_evidence env pid idx eh s = .ok (s', ts) →
        ∀ q, (s'.projects q).map Project.raised = (s.projects q).map Project.raised) ∧
    (∀ (env : Env) (pid idx : Nat) (approved : Bool) (s s' : State) (ts : List Transfer),
        verify_milestone env pid idx approved s = .ok (s', ts) →
        ∀ q, (s'.projects q).map Project.raised = (s.projects q).map Project.raised) ∧
    (∀ (env : Env) (v t : Nat) (s s' : State) (ts : List Transfer),
        init_contract env v t s = .ok (s', ts) → ∀ q, s'.projects q = s.projects q) := by
  refine ⟨fun s h => reachable_nonnegRaised h, ?_, ?_, ?_, ?_, ?_⟩
  · intro env pid investor amount s s' ts h
    obtain ⟨p, tok, hp, -, hamt, -, -, hs'⟩ := invest_ok h
    subst hs'
    exact ⟨hamt, ⟨p, hp, by simp⟩, fun q hq => by simp [hq]⟩
  · intro env pid idx s s' ts h q
    obtain ⟨project, milestone, tok, hproj, -, -, -, -, -, hs'⟩ := trigger_refund_ok h
    subst hs'
    dsimp only
    by_cases hq : q = pid
    · subst hq
      rw [if_pos rfl, hproj]
      rfl
    · rw [if_neg hq]
  · intro env pid idx eh s s' ts h q
    obtain ⟨project, milestone, hproj, -, -, -, hs'⟩ := submit_evidence_ok h
    subst hs'
    dsimp only
    by_cases hq : q = pid
    · subst hq
      rw [if_pos rfl, hproj]
      rfl
    · rw [if_neg hq]
  · intro env pid idx approved s s' ts h q
    obtain ⟨ver, project, milestone, -, hproj, -, -, hcase⟩ := verify_milestone_ok h
    rcases hcase with ⟨-, -, hs'⟩ | ⟨-, -, hs'⟩ <;>
      · subst hs'
        dsimp only
        by_cases hq : q = pid
        · subst hq
          rw [if_pos rfl, hproj]
          rfl
        · rw [if_neg hq]
  · intro env v t s s' ts h q
    obtain ⟨-, hs', -⟩ := init_contract_ok h
    subst hs'
    rfl

/-- C9 witness: applying the refund clause to the concrete refund step of
trace H. -/
theorem raised_evolution_witness :
    (stH4.projects 1).map Project.raised = (stH3.projects 1).map Project.raised :=
  raised_evolution.2.2.1 (envAt 10) 1 0 stH3 stH4
    [{ src := 0, dst := 4, amount := 100 }] rfl 1

lemma trigger_refund_empty_no_panic {env : Env} {pid idx : Nat} {s : State}
    (hemp : s.investments pid = []) :
    trigger_refund env pid idx s ≠ .error .PanicDivisionByZero := by
  intro h
  unfold trigger_refund at h
  rw [hemp] at h
  split at h
  · simp at h
  · split at h
    · simp at h
    · split at h
      · simp at h
      · split at h
        · simp at h
        · dsimp only at h
          split at h
          · simp at h
          · split at h
            · rename_i e hloop
              simp [refundLoop] at hloop
            · simp at h

lemma isDivByZeroPanic_false {r : Except Err (State × List Transfer)}
    (h : r ≠ .error Err.PanicDivisionByZero) : isDivByZeroPanic r = false := by
  cases r with
  | ok p => rfl
  | error e => cases e <;> first | rfl | exact absurd rfl h

/-- C4 counterexample: `stE2` is reachable and is exactly the state the
claim describes — project 1 has `raised = 0`, no investment was ever made,
and milestone 0's deadline has passed unverified — yet `trigger_refund`
does not divide by `raised`: the refund loop body never runs, and the call
is a defined success that dispatches nothing and deactivates the project. -/
theorem div_by_zero_claim_counterexample :
    Reachable stE2 ∧
      (stE2.projects 1).map Project.raised = some 0 ∧
      stE2.investments 1 = [] ∧
      milestoneStatusAt stE2 1 0 = some MilestoneStatus.Pending ∧
      resultIsOk (trigger_refund (envAt 10) 1 0 stE2) = true ∧
      resultTransfers (trigger_refund (envAt 10) 1 0 stE2) = [] ∧
      isDivByZeroPanic (trigger_refund (envAt 10) 1 0 stE2) = false ∧
      (stE3.projects 1).map Project.active = some false :=
  ⟨reach_E2, rfl, rfl, rfl, rfl, rfl, rfl, rfl⟩

/-- C4 (amended): with no investment records the division is never
executed, so a `raised = 0` project that was never invested in cannot
crash `trigger_refund`; but the division by `raised = 0` *is* reachable —
in `stT5` the counter-reset overwrite left `raised = 0` with a stale
investment record, and `trigger_refund` hits the division-by-zero panic. -/
theorem div_by_zero_reachability :
    (∀ (env : Env) (pid idx : Nat) (s : State), s.investments pid = [] →
        isDivByZeroPanic (trigger_refund env pid idx s) = false) ∧
      Reachable stT5 ∧ (stT5.projects 1).map Project.raised = some 0 ∧
      stT5.investments 1 = [{ investor := 4, amount := 50, timestamp := 1 }] ∧
      isDivByZeroPanic (trigger_refund (envAt 10) 1 0 stT5) = true :=
  ⟨fun _ _ _ _ hemp => isDivByZeroPanic_false (trigger_refund_empty_no_panic hemp),
    reach_T5, rfl, rfl, rfl⟩

/-- C4 witness: the no-investments clause applied at a concrete input. -/
theorem div_by_zero_reachability_witness :
    isDivByZeroPanic (trigger_refund (envAt 0) 2 0 initState) = false :=
  div_by_zero_reachability.1 (envAt 0) 2 0 initState rfl

/-- C1: a successful `trigger_refund(pid, idx)` on a reachable state finds
the project; its refund pool `unverified_amount` equals the sum of the
amounts of the milestones at index ≥ `idx` whose status is not `Verified`;
the transfers it issues are exactly one escrow-to-investor transfer of
`floor(investment.amount * unverified_amount / raised)` per stored
investment record, zero (and negative) refunds skipped; and afterwards the
project's `active` flag is `false`. -/
theorem trigger_refund_spec {env : Env} {pid idx : Nat} {s s' : State} {ts : List Transfer}
    (hreach : Reachable s) (h : trigger_refund env pid idx s = .ok (s', ts)) :
    ∃ project, s.projects pid = some project ∧
      unverifiedAmount project.milestones idx = specUnverified project.milestones idx ∧
      ts = specRefundTransfers env.contractAddress project.raised
        (unverifiedAmount project.milestones idx) (s.investments pid) ∧
      (s'.projects pid).map Project.active = some false := by
  obtain ⟨project, milestone, tok, hproj, hm, hdl, hver, htok, hloop, hs'⟩ := trigger_refund_ok h
  refine ⟨project, hproj, unverifiedAmount_eq_spec _ _, ?_, ?_⟩
  · rcases refundLoop_ok_cases hloop with hemp | hR
    · rw [hemp] at hloop
      simp only [refundLoop] at hloop
      cases hloop
      rw [hemp]
      rfl
    · have h0 : 0 ≤ project.raised := reachable_nonnegRaised hreach pid project hproj
      have hpos : 0 < project.raised := lt_of_le_of_ne h0 (Ne.symm hR)
      rw [refundLoop_ok_of_ne_zero _ _ hR] at hloop
      cases hloop
      exact (tdiv_eq_spec_refunds hpos _ _ _)
  · subst hs'
    simp

/-- C1 witness: the concrete refund of trace H (raised 100, one investor,
unverified pool 100) matches the spec formula. -/
theorem trigger_refund_spec_witness :
    ∃ project, stH3.projects 1 = some project ∧
      unverifiedAmount project.milestones 0 = specUnverified project.milestones 0 ∧
      [({ src := 0, dst := 4, amount := 100 } : Transfer)]
        = specRefundTransfers 0 project.raised
            (unverifiedAmount project.milestones 0) (stH3.investments 1) ∧
      (stH4.projects 1).map Project.active = some false :=
  @trigger_refund_spec (envAt 10) 1 0 stH3 stH4
    [{ src := 0, dst := 4, amount := 100 }] reach_H3 (by rfl)

/-- C2 counterexample: project 1 of reachable `stE2` (goal 400, one Pending
milestone of 400, never invested in) is refundable at time 10; the call
succeeds and dispatches no transfers, so the dispatched sum is `0` although
`unverified_amount = 400` and the divisibility side condition holds
vacuously (there is no investment record) — the claimed equality fails. -/
theorem refund_sum_claim_counterexample :
    Reachable stE2 ∧
      stE2.investments 1 = [] ∧
      resultIsOk (trigger_refund (envAt 10) 1 0 stE2) = true ∧
      sumTransfers (resultTransfers (trigger_refund (envAt 10) 1 0 stE2)) = 0 ∧
      (stE2.projects 1).map (fun p => unverifiedAmount p.milestones 0) = some 400 ∧
      (0 : Int) ≠ 400 :=
  ⟨reach_E2, rfl, rfl, rfl, rfl, by decide⟩

/-- C2 (amended): for a successful `trigger_refund` on a project whose
`raised` equals the sum of its stored investment amounts (all
non-negative) and whose unverified pool is non-negative, the dispatched
refund sum is at most `unverified_amount`; and when moreover `raised > 0`
and `raised` divides every product `investment.amount * unverified_amount`,
the dispatched sum equals `unverified_amount` exactly. -/
theorem refund_sum_bounded {env : Env} {pid idx : Nat} {s s' : State} {ts : List Transfer}
    {project : Project}
    (hproj : s.projects pid = some project)
    (hsum : project.raised = sumAmounts (s.investments pid))
    (hpos : ∀ inv ∈ s.investments pid, 0 ≤ inv.amount)
    (hu : 0 ≤ unverifiedAmount project.milestones idx)
    (h : trigger_refund env pid idx s = .ok (s', ts)) :
    sumTransfers ts ≤ unverifiedAmount project.milestones idx ∧
      (0 < project.raised →
        (∀ inv ∈ s.investments pid,
            project.raised ∣ inv.amount * unverifiedAmount project.milestones idx) →
        sumTransfers ts = unverifiedAmount project.milestones idx) := by
  obtain ⟨project₁, milestone, tok, hproj₁, hm, hdl, hver, htok, hloop, hs'⟩ := trigger_refund_ok h
  rw [hproj] at hproj₁
  injection hproj₁ with hpq
  subst hpq
  rcases refundLoop_ok_cases hloop with hemp | hR
  · rw [hemp] at hloop
    simp only [refundLoop] at hloop
    cases hloop
    constructor
    · simpa [sumTransfers] using hu
    · intro hRpos _
      rw [hemp] at hsum
      simp [sumAmounts] at hsum
      omega
  · have hR0 : 0 ≤ project.raised := by
      rw [hsum]
      unfold sumAmounts
      refine List.sum_nonneg fun x hx => ?_
      obtain ⟨inv, hinv, rfl⟩ := List.mem_map.mp hx
      exact hpos inv hinv
    have hRpos : 0 < project.raised := lt_of_le_of_ne hR0 (Ne.symm hR)
    rw [refundLoop_ok_of_ne_zero _ _ hR] at hloop
    cases hloop
    have hdisp := dispatched_sum_eq hRpos hu env.contractAddress (s.investments pid) hpos
    constructor
    · rw [hdisp]
      calc ((s.investments pid).map
              (fun inv => inv.amount * unverifiedAmount project.milestones idx / project.raised)).sum
          ≤ ((s.investments pid).map
              (fun inv => inv.amount * unverifiedAmount project.milestones idx)).sum /
                project.raised :=
            sum_map_ediv_le hRpos _ _
        _ = sumAmounts (s.investments pid) * unverifiedAmount project.milestones idx /
              project.raised := by
            rw [List.sum_map_mul_right]
            rfl
        _ = project.raised * unverifiedAmount project.milestones idx / project.raised := by
            rw [← hsum]
        _ = unverifiedAmount project.milestones idx :=
            Int.mul_ediv_cancel_left _ hR
    · intro _ hdvd
      rw [hdisp]
      have hexact := sum_map_ediv_exact hR
        (fun inv => inv.amount * unverifiedAmount project.milestones idx)
        (s.investments pid) hdvd
      refine mul_right_cancel₀ hR ?_
      rw [hexact, List.sum_map_mul_right]
      show sumAmounts (s.investments pid) * unverifiedAmount project.milestones idx = _
      rw [← hsum, mul_comm]

/-- C2 witness: the amended bound applied to the concrete refund on `stE2`
(no investments, so the dispatched sum `0` is bounded by the pool 400 and
the equality clause is not triggered since `raised = 0`). -/
theorem refund_sum_bounded_witness :
    sumTransfers [] ≤ unverifiedAmount projE2.milestones 0 ∧
      (0 < projE2.raised →
        (∀ inv ∈ stE2.investments 1,
            projE2.raised ∣ inv.amount * unverifiedAmount projE2.milestones 0) →
        sumTransfers [] = unverifiedAmount projE2.milestones 0) :=
  @refund_sum_bounded (envAt 10) 1 0 stE2 stE3 [] projE2 (by rfl) (by rfl)
    (by intro inv hinv; rw [show stE2.investments 1 = ([] : List Investment) from rfl] at hinv;
        cases hinv)
    (by decide) (by rfl)

/-- C7 counterexample: on reachable `stO3` the owner `3` invested in their
own project, and the (successful) `trigger_refund` — not an approved
`verify_milestone` — issues an escrow-to-owner transfer of 100. -/
theorem owner_transfer_claim_counterexample :
    Reachable stO3 ∧
      (stO3.projects 1).map Project.owner = some 3 ∧
      resultIsOk (trigger_refund (envAt 10) 1 0 stO3) = true ∧
      resultTransfers (trigger_refund (envAt 10) 1 0 stO3)
        = [{ src := 0, dst := 3, amount := 100 }] :=
  ⟨reach_O3, rfl, rfl, rfl⟩

lemma verify_not_awaiting {env : Env} {pid idx : Nat} {approved : Bool} {s : State}
    {ver : Nat} {project : Project} {milestone : Milestone}
    (hver : s.verifier = some ver) (hproj : s.projects pid = some project)
    (hm : project.milestones[idx]? = some milestone)
    (hst : milestone.status ≠ MilestoneStatus.EvidenceSubmitted) :
    verify_milestone env pid idx approved s = .error .NotAwaitingVerification := by
  unfold verify_milestone
  rw [hver, hproj]
  dsimp only
  rw [hm]
  dsimp only
  rw [if_pos hst]

lemma refundLoop_mem (c : Nat) (R u : Int) :
    ∀ (l : List Investment) (ts : List Transfer), refundLoop c R u l = .ok ts →
      ∀ t ∈ ts, ∃ inv ∈ l, t.src = c ∧ t.dst = inv.investor
  | [], ts, h, t, ht => by
    simp only [refundLoop] at h
    cases h
    cases ht
  | inv :: rest, ts, h, t, ht => by
    unfold refundLoop at h
    split at h
    · cases h
    · dsimp only at h
      cases hrec : refundLoop c R u rest with
      | error e =>
        rw [hrec] at h
        cases h
      | ok ts0 =>
        rw [hrec] at h
        dsimp only at h
        by_cases hr : 0 < (inv.amount * u).tdiv R
        · rw [if_pos hr] at h
          cases h
          rcases List.mem_cons.mp ht with rfl | ht0
          · exact ⟨inv, by simp, rfl, rfl⟩
          · obtain ⟨i, hi, hs, hd⟩ := refundLoop_mem c R u rest ts0 hrec t ht0
            exact ⟨i, by simp [hi], hs, hd⟩
        · rw [if_neg hr] at h
          cases h
          obtain ⟨i, hi, hs, hd⟩ := refundLoop_mem c R u rest ts hrec t ht
          exact ⟨i, by simp [hi], hs, hd⟩

/-- C7 (amended): `verify_milestone` fails with `NotAwaitingVerification`
whenever the target milestone exists but is not `EvidenceSubmitted` (with
a verifier configured); an approved success marks the milestone `Verified`
and transfers exactly `milestone.amount` from escrow to the owner; a
rejected success marks it `Rejected` and moves no funds; and every
escrow-outgoing transfer of any public operation is either such an
approved-verify payout to the project's owner or a `trigger_refund` refund
to a recorded investor of the project (so funds reach the owner outside
`verify_milestone` only where the owner is an investor being refunded). -/
theorem verify_milestone_characterization :
    (∀ (env : Env) (pid idx : Nat) (approved : Bool) (s : State) (ver : Nat)
        (project : Project) (milestone : Milestone),
        s.verifier = some ver → s.projects pid = some project →
        project.milestones[idx]? = some milestone →
        milestone.status ≠ MilestoneStatus.EvidenceSubmitted →
        verify_milestone env pid idx approved s = .error .NotAwaitingVerification) ∧
    (∀ (env : Env) (pid idx : Nat) (s s' : State) (ts : List Transfer),
        verify_milestone env pid idx true s = .ok (s', ts) →
        ∃ project milestone, s.projects pid = some project ∧
          project.milestones[idx]? = some milestone ∧
          milestone.status = MilestoneStatus.EvidenceSubmitted ∧
          ts = [{ src := env.contractAddress, dst := project.owner, amount := milestone.amount }] ∧
          milestoneStatusAt s' pid idx = some MilestoneStatus.Verified) ∧
    (∀ (env : Env) (pid idx : Nat) (s s' : State) (ts : List Transfer),
        verify_milestone env pid idx false s = .ok (s', ts) →
        ts = [] ∧ milestoneStatusAt s' pid idx = some MilestoneStatus.Rejected) ∧
    (∀ (env : Env) (op : Op) (s s' : State) (ts : List Transfer),
        applyOp env op s = .ok (s', ts) → ∀ t ∈ ts, t.src = env.contractAddress →
        t.dst ≠ env.contractAddress →
        (∃ pid idx, op = Op.opVerify pid idx true ∧
          ∃ project milestone, s.projects pid = some project ∧
            project.milestones[idx]? = some milestone ∧
            t.dst = project.owner ∧ t.amount = milestone.amount) ∨
        (∃ pid idx, op = Op.opRefund pid idx ∧
          ∃ inv ∈ s.investments pid, t.dst = inv.investor)) := by
  refine ⟨fun env pid idx approved s ver project milestone hver hproj hm hst =>
      verify_not_awaiting hver hproj hm hst, ?_, ?_, ?_⟩
  · intro env pid idx s s' ts h
    obtain ⟨ver, project, milestone, hver, hproj, hm, hst, hcase⟩ := verify_milestone_ok h
    rcases hcase with ⟨-, hts, hs'⟩ | ⟨habs, -, -⟩
    · subst hs'
      refine ⟨project, milestone, hproj, hm, hst, hts, ?_⟩
      unfold milestoneStatusAt
      dsimp only
      rw [if_pos rfl]
      dsimp only
      rw [List.getElem?_set_self (List.getElem?_eq_some.mp hm).1]
      rfl
    · cases habs
  · intro env pid idx s s' ts h
    obtain ⟨ver, project, milestone, hver, hproj, hm, hst, hcase⟩ := verify_milestone_ok h
    rcases hcase with ⟨habs, -, -⟩ | ⟨-, hts, hs'⟩
    · cases habs
    · subst hs'
      refine ⟨hts, ?_⟩
      unfold milestoneStatusAt
      dsimp only
      rw [if_pos rfl]
      dsimp only
      rw [List.getElem?_set_self (List.getElem?_eq_some.mp hm).1]
      rfl
  · intro env op s s' ts h t ht hsrc hdst
    cases op with
    | opInit v tk =>
      simp only [applyOp] at h
      obtain ⟨-, -, hts⟩ := init_contract_ok h
      subst hts
      cases ht
    | opCreate o g amts dls =>
      simp only [applyOp] at h
      cases hc : create_project env o g amts dls s with
      | error e => rw [hc] at h; cases h
      | ok res =>
        obtain ⟨n, s₁⟩ := res
        rw [hc] at h
        cases h
        cases ht
    | opInvest pid investor amount =>
      simp only [applyOp] at h
      obtain ⟨p, tok, -, -, -, -, hts, -⟩ := invest_ok h
      subst hts
      rcases List.mem_singleton.mp ht with rfl
      exact absurd rfl hdst
    | opSubmit pid idx eh =>
      simp only [applyOp] at h
      obtain ⟨p, m, -, -, -, hts, -⟩ := submit_evidence_ok h
      subst hts
      cases ht
    | opVerify pid idx approved =>
      simp only [applyOp] at h
      obtain ⟨ver, project, milestone, hver, hproj, hm, hst, hcase⟩ := verify_milestone_ok h
      rcases hcase with ⟨happ, hts, -⟩ | ⟨happ, hts, -⟩
      · subst hts
        rcases List.mem_singleton.mp ht with rfl
        subst happ
        exact Or.inl ⟨pid, idx, rfl, project, milestone, hproj, hm, rfl, rfl⟩
      · subst hts
        cases ht
    | opRefund pid idx =>
      simp only [applyOp] at h
      obtain ⟨project, milestone, tok, hproj, hm, hdl, hver, htok, hloop, hs'⟩ :=
        trigger_refund_ok h
      obtain ⟨inv, hinv, -, hd⟩ :=
        refundLoop_mem env.contractAddress project.raised
          (unverifiedAmount project.milestones idx) (s.investments pid) ts hloop t ht
      exact Or.inr ⟨pid, idx, rfl, inv, hinv, hd⟩

/-- C7 witness: on reachable `stH2` milestone (1,0) is still `Pending`, and
`verify_milestone` fails with `NotAwaitingVerification`. -/
theorem verify_milestone_characterization_witness :
    verify_milestone (envAt 5) 1 0 true stH2 = .error .NotAwaitingVerification :=
  verify_milestone_characterization.1 (envAt 5) 1 0 true stH2 1
    { id := 1, owner := 3, goal_amount := 100, raised := 0, milestones := [msH], active := true }
    msH (by rfl) (by rfl) (by rfl) (by decide)

